import Mathlib

/-!
Shallow embedding of the Path-Generation Blender add-on (`src/__init__.py`):
an ordered list of 3D control points with per-point visual-marker names,
and the operators that mutate it (add/insert, remove, move up/down,
drag-reorder, generate curve).

Coordinates are modelled as integers: the add-on never performs arithmetic
on coordinates — it only stores the literals `0.0` / `1.0` and copies
values around — so an exact carrier is faithful for every property below.
Python exceptions that can actually escape an operator (`IndexError` from
collection subscripting) are modelled with `Except`.
-/

namespace PathGen

/-- A coordinate triple `(x, y, z)`. -/
abbrev Coord := Int × Int × Int

/-- `ControlPointProperty`: one control point record — coordinates plus the
name of its visual sphere proxy (empty before the first sync). -/
structure ControlPoint where
  x : Int
  y : Int
  z : Int
  sphere_name : String
deriving DecidableEq, Repr

/-- The coordinate triple of a control point. -/
def ControlPoint.coords (p : ControlPoint) : Coord := (p.x, p.y, p.z)

/-- The point with its coordinates overwritten (marker name kept). -/
def ControlPoint.withCoords (p : ControlPoint) (c : Coord) : ControlPoint :=
  { p with x := c.1, y := c.2.1, z := c.2.2 }

/-- The point with its marker name overwritten (coordinates kept). -/
def ControlPoint.withName (p : ControlPoint) (s : String) : ControlPoint :=
  { p with sphere_name := s }

/-- The scene-level persisted state: the ordered control-point collection,
the active index, and the curve settings (all `bpy.types.Scene` properties
registered by the add-on). -/
structure SceneState where
  control_points : List ControlPoint
  active_control_point_index : Int
  curve_type : String
  curve_name : String
deriving DecidableEq, Repr

/-- The marker name `"ControlPoint_" + str(index)` used throughout the
add-on (the `f"ControlPoint_{i}"` format strings). -/
def controlPointName (i : Int) : String := "ControlPoint_" ++ toString i

/-- Operator report messages: `self.report({'INFO'}, ...)` or
`self.report({'WARNING'}, ...)`. -/
inductive ReportMsg
  | info (s : String)
  | warning (s : String)
deriving DecidableEq, Repr

/-- Operator return values `{'FINISHED'}` / `{'CANCELLED'}`. -/
inductive OpResult
  | FINISHED
  | CANCELLED
deriving DecidableEq, Repr

/-- The one Python exception that can escape an operator here: `IndexError`
raised by subscripting a `bpy` collection out of range. -/
inductive PyError
  | indexError
deriving DecidableEq, Repr

/-- Python subscript resolution on a sequence of length `len`: a negative
index counts from the end. -/
def pyResolve (len : Nat) (i : Int) : Int := if i < 0 then i + len else i

/-- Python read `seq[i]` on the control-point collection: negative indices
count from the end, out-of-range raises (here: `none`). -/
def pyGet (l : List ControlPoint) (i : Int) : Option ControlPoint :=
  let j := pyResolve l.length i
  if 0 ≤ j then l.get? j.toNat else none

/-- Overwrite the coordinates at list position `j` (in-place mutation of
the point object `pts[j]`, its `sphere_name` untouched). -/
def setCoordsAt : List ControlPoint → Nat → Coord → List ControlPoint
  | [], _, _ => []
  | p :: rest, 0, c => p.withCoords c :: rest
  | p :: rest, j + 1, c => p :: setCoordsAt rest j c

/-- Overwrite the `sphere_name` at list position `j`. -/
def setSphereNameAt : List ControlPoint → Nat → String → List ControlPoint
  | [], _, _ => []
  | p :: rest, 0, s => p.withName s :: rest
  | p :: rest, j + 1, s => p :: setSphereNameAt rest j s

/-- Python write `pts[i].sphere_name = s` with Python index resolution. -/
def pySetSphereName (l : List ControlPoint) (i : Int) (s : String) : List ControlPoint :=
  let j := pyResolve l.length i
  if 0 ≤ j then setSphereNameAt l j.toNat s else l

/-- The `for i, point in enumerate(control_points): point.sphere_name =
f"ControlPoint_{i}"; create_control_point_sphere(...)` loop: every point's
marker name is rewritten to match its current index (the external sphere
creation is a scene side effect with no further effect on this state;
`create_control_point_sphere` re-assigns the same name). -/
def resyncNames : Nat → List ControlPoint → List ControlPoint
  | _, [] => []
  | i, p :: rest => p.withName (controlPointName i) :: resyncNames (i + 1) rest

/-- Modelled from the spec: the host collection primitive
`control_points.move(from_index, to_index)` used by the move/reorder
operators is host-application code, not part of this repository; §4.1
specifies it as "removes the point at oldIndex and reinserts it at
newIndex (list semantics: elements between the two positions shift by one
to fill the gap — standard single-element reposition, not swap)". The
spec does not define it for out-of-range arguments; those are modelled as
the identity (no operator property in this file depends on that choice). -/
def collMove (l : List ControlPoint) (fromI toI : Int) : List ControlPoint :=
  if h : 0 ≤ fromI ∧ fromI < (l.length : Int) ∧ 0 ≤ toI ∧ toI < (l.length : Int) then
    (l.eraseIdx fromI.toNat).insertIdx toI.toNat (l.get ⟨fromI.toNat, by omega⟩)
  else l

/-- The append branch of `OBJECT_OT_add_control_point.execute` (taken when
`self.index < 0 or self.index > num_points`): a fresh `(0,0,0)` point is
appended, named for its index, and the active index is set to it. -/
def addAtEnd (st : SceneState) : SceneState :=
  let num_points := st.control_points.length
  let new_point : ControlPoint :=
    { x := 0, y := 0, z := 0, sphere_name := controlPointName num_points }
  { st with
    control_points := st.control_points ++ [new_point]
    active_control_point_index := (num_points : Int) }

/-- The `for i in range(num_points, index, -1)` shift loop of the insert
branch: counting `i` down from `num_points` to `index + 1`, position `i`
receives the saved coordinates of original position `i - 1` (the loop
body's range guard on `prev_idx` included). `fuel` is the number of
remaining iterations, so `i = idx + fuel`. -/
def shiftLoop (existing : List Coord) (idx : Nat) : Nat → List ControlPoint → List ControlPoint
  | 0, pts => pts
  | k + 1, pts =>
      let i := idx + k + 1
      let prev := i - 1
      shiftLoop existing idx k
        (if prev < existing.length then setCoordsAt pts i (existing.getD prev (0, 0, 0)) else pts)

/-- `OBJECT_OT_add_control_point.execute`: append when the index is out of
range, otherwise save all coordinates, append a default point, shift
coordinates up from the insertion position, zero the insertion position,
and resync every marker name. -/
def insertExec (st : SceneState) (index : Int) : SceneState :=
  let control_points := st.control_points
  let num_points := control_points.length
  if index < 0 ∨ index > (num_points : Int) then
    addAtEnd st
  else
    let idx := index.toNat
    let existing_points : List Coord := control_points.map ControlPoint.coords
    let pts0 := control_points ++ [{ x := 0, y := 0, z := 0, sphere_name := "" }]
    let pts1 := shiftLoop existing_points idx (num_points - idx) pts0
    let pts2 := setCoordsAt pts1 idx (0, 0, 0)
    let pts3 := resyncNames 0 pts2
    { st with control_points := pts3, active_control_point_index := index }

/-- `OBJECT_OT_remove_control_point.execute`: when the index is in range
the point (and its sphere) is removed and an info message reported;
otherwise a warning is reported and the state is untouched. No trailing
marker name is rewritten. -/
def removeExec (st : SceneState) (index : Int) :
    Except PyError (SceneState × ReportMsg) :=
  if 0 ≤ index ∧ index < (st.control_points.length : Int) then
    .ok ({ st with control_points := st.control_points.eraseIdx index.toNat },
         .info ("Removed control point " ++ toString (index + 1)))
  else
    .ok (st, .warning "Invalid point index")

/-- The UP/DOWN direction enum of `OBJECT_OT_move_control_point`. -/
inductive Direction
  | UP
  | DOWN
deriving DecidableEq, Repr

/-- `OBJECT_OT_move_control_point.execute`: computes the destination
index, and only when the destination is in `[0, num_points)` reads the
two points (a read with the source index itself out of range raises
`IndexError`), moves, sets the active index, and renames/recreates
exactly the two affected markers. Otherwise nothing happens. -/
def moveAdjacentExec (st : SceneState) (index : Int) (direction : Direction) :
    Except PyError SceneState :=
  let control_points := st.control_points
  let num_points := control_points.length
  let old_index := index
  let new_index := if direction = .UP then old_index - 1 else old_index + 1
  if 0 ≤ new_index ∧ new_index < (num_points : Int) then
    match pyGet control_points old_index, pyGet control_points new_index with
    | some _, some _ =>
        let pts := collMove control_points old_index new_index
        let pts := pySetSphereName pts old_index (controlPointName old_index)
        let pts := pySetSphereName pts new_index (controlPointName new_index)
        .ok { st with
              control_points := pts
              active_control_point_index := new_index }
    | _, _ => .error .indexError
  else
    .ok st

/-- `OBJECT_OT_reorder_control_point.execute`: every sphere is destroyed,
the collection move repositions the point, every marker name is resynced
in the new order, and the active index is set to the destination. -/
def reorderExec (st : SceneState) (old_index new_index : Int) : SceneState :=
  let pts := collMove st.control_points old_index new_index
  let pts := resyncNames 0 pts
  { st with
    control_points := pts
    active_control_point_index := new_index }

/-- One NURBS spline point `(x, y, z, w)` as assigned to
`spline.points[i].co`. -/
abbrev NurbsPoint := Int × Int × Int × Int

/-- One Bezier spline point: anchor coordinates and the two handle-type
strings. -/
structure BezierPointData where
  co : Coord
  handle_right_type : String
  handle_left_type : String
deriving DecidableEq, Repr

/-- The spline payload written into the new curve datablock. -/
inductive SplineData
  | nurbs (points : List NurbsPoint) (order_u : Nat) (use_endpoint_u : Bool)
  | bezier (points : List BezierPointData)
deriving DecidableEq, Repr

/-- The curve object linked into the scene: its object name and its
spline data. -/
structure CurveObjectData where
  name : String
  spline : SplineData
deriving DecidableEq, Repr

/-- `OBJECT_OT_generate_curve.execute`: cancels with a warning when there
are no control points; otherwise builds a NURBS spline (weight-1 points,
order `min(4, n)`, endpoint interpolation) when the curve type is
`"NURBS"`, else a Bezier spline (one AUTO/AUTO anchor per point), and
links an object named `curve_name + "Obj"` into the scene. -/
def generateExec (st : SceneState) : OpResult × Option CurveObjectData × ReportMsg :=
  let curve_type := st.curve_type
  let control_points := st.control_points
  let curve_name := if st.curve_name = "" then "GeneratedCurve" else st.curve_name
  if control_points.isEmpty then
    (.CANCELLED, none, .warning "No control points added!")
  else
    let spline :=
      if curve_type = "NURBS" then
        SplineData.nurbs (control_points.map (fun p => (p.x, p.y, p.z, 1)))
          (min 4 control_points.length) true
      else
        SplineData.bezier (control_points.map (fun p =>
          { co := p.coords, handle_right_type := "AUTO", handle_left_type := "AUTO" }))
    (.FINISHED,
     some { name := curve_name ++ "Obj", spline := spline },
     .info ("Generated " ++ curve_type ++ " curve: " ++ curve_name))

/-- Marker-index agreement (spec §3): every point whose `sphere_name` is
non-empty is named for its current list index. -/
def markerAgreement (st : SceneState) : Prop :=
  ∀ i (h : i < st.control_points.length),
    (st.control_points.get ⟨i, h⟩).sphere_name ≠ "" →
    (st.control_points.get ⟨i, h⟩).sphere_name = controlPointName i

instance (st : SceneState) : Decidable (markerAgreement st) :=
  Nat.decidableBallLT _ _

/-- Full synchronization: every point's `sphere_name` is non-empty and
names its current index (the state every full resync leaves behind). -/
def fullySynced (st : SceneState) : Prop :=
  ∀ i (h : i < st.control_points.length),
    (st.control_points.get ⟨i, h⟩).sphere_name = controlPointName i

instance (st : SceneState) : Decidable (fullySynced st) :=
  Nat.decidableBallLT _ _

/-- The coordinate sequence of a point list. -/
def coordsList (l : List ControlPoint) : List Coord := l.map ControlPoint.coords

/-! ### Basic lemmas about the list helpers -/

theorem length_setCoordsAt (l : List ControlPoint) (j : Nat) (c : Coord) :
    (setCoordsAt l j c).length = l.length := by
  induction l generalizing j with
  | nil => rfl
  | cons p rest ih =>
      cases j with
      | zero => rfl
      | succ j => simpa [setCoordsAt] using ih j

theorem get?_setCoordsAt (l : List ControlPoint) (j : Nat) (c : Coord) (i : Nat) :
    (setCoordsAt l j c).get? i =
      if i = j then (l.get? i).map (fun p => p.withCoords c) else l.get? i := by
  induction l generalizing i j with
  | nil => simp [setCoordsAt]
  | cons p rest ih =>
      cases j with
      | zero =>
          cases i with
          | zero => simp [setCoordsAt]
          | succ i => simp [setCoordsAt]
      | succ j =>
          cases i with
          | zero => simp [setCoordsAt]
          | succ i => simpa [setCoordsAt] using ih j i

theorem length_setSphereNameAt (l : List ControlPoint) (j : Nat) (s : String) :
    (setSphereNameAt l j s).length = l.length := by
  induction l generalizing j with
  | nil => rfl
  | cons p rest ih =>
      cases j with
      | zero => rfl
      | succ j => simpa [setSphereNameAt] using ih j

theorem get?_setSphereNameAt (l : List ControlPoint) (j : Nat) (s : String) (i : Nat) :
    (setSphereNameAt l j s).get? i =
      if i = j then (l.get? i).map (fun p => p.withName s) else l.get? i := by
  induction l generalizing i j with
  | nil => simp [setSphereNameAt]
  | cons p rest ih =>
      cases j with
      | zero =>
          cases i with
          | zero => simp [setSphereNameAt]
          | succ i => simp [setSphereNameAt]
      | succ j =>
          cases i with
          | zero => simp [setSphereNameAt]
          | succ i => simpa [setSphereNameAt] using ih j i

theorem length_resyncNames (k : Nat) (l : List ControlPoint) :
    (resyncNames k l).length = l.length := by
  induction l generalizing k with
  | nil => rfl
  | cons p rest ih => simpa [resyncNames] using ih (k + 1)

theorem get?_resyncNames (k : Nat) (l : List ControlPoint) (i : Nat) :
    (resyncNames k l).get? i =
      (l.get? i).map (fun p => p.withName (controlPointName (k + i : Nat))) := by
  induction l generalizing k i with
  | nil => simp [resyncNames]
  | cons p rest ih =>
      cases i with
      | zero => simp [resyncNames]
      | succ i =>
          have h := ih (k + 1) i
          have harg : k + 1 + i = k + (i + 1) := by omega
          simpa [resyncNames, harg] using h

theorem coordsList_setSphereNameAt (l : List ControlPoint) (j : Nat) (s : String) :
    coordsList (setSphereNameAt l j s) = coordsList l := by
  induction l generalizing j with
  | nil => rfl
  | cons p rest ih =>
      cases j with
      | zero => simp [setSphereNameAt, coordsList, ControlPoint.withName, ControlPoint.coords]
      | succ j => simpa [setSphereNameAt, coordsList] using ih j

theorem coordsList_resyncNames (k : Nat) (l : List ControlPoint) :
    coordsList (resyncNames k l) = coordsList l := by
  induction l generalizing k with
  | nil => rfl
  | cons p rest ih =>
      simpa [resyncNames, coordsList, ControlPoint.withName, ControlPoint.coords]
        using ih (k + 1)

theorem coordsList_insertIdx (l : List ControlPoint) (n : Nat) (p : ControlPoint) :
    coordsList (l.insertIdx n p) = (coordsList l).insertIdx n p.coords := by
  induction n generalizing l with
  | zero => simp [coordsList]
  | succ n ih =>
      cases l with
      | nil => simp [coordsList]
      | cons a as => simpa [coordsList] using ih as

theorem coordsList_eraseIdx (l : List ControlPoint) (n : Nat) :
    coordsList (l.eraseIdx n) = (coordsList l).eraseIdx n := by
  induction l generalizing n with
  | nil => rfl
  | cons a as ih =>
      cases n with
      | zero => rfl
      | succ n => simpa [coordsList] using ih n

theorem insertIdx_eraseIdx_self {α : Type} (l : List α) (n : Nat) (h : n < l.length) :
    (l.eraseIdx n).insertIdx n (l.get ⟨n, h⟩) = l := by
  induction l generalizing n with
  | nil => cases h
  | cons a as ih =>
      cases n with
      | zero => rfl
      | succ n =>
          have h' : n < as.length := Nat.lt_of_succ_lt_succ h
          simpa using ih n h'

theorem get?_insertIdx {α : Type} (l : List α) (x : α) (n : Nat) (hn : n ≤ l.length) :
    ∀ i, (l.insertIdx n x).get? i =
      if i < n then l.get? i else if i = n then some x else l.get? (i - 1) := by
  induction n generalizing l with
  | zero =>
      intro i
      cases i with
      | zero => simp
      | succ i => simp
  | succ n ih =>
      cases l with
      | nil => exact absurd hn (by simp)
      | cons a as =>
          intro i
          cases i with
          | zero => simp
          | succ i =>
              have h := ih as (Nat.le_of_succ_le_succ hn) i
              rw [List.insertIdx_succ_cons]
              show (List.insertIdx n x as).get? i = _
              rw [h]
              rcases Nat.lt_trichotomy i n with hlt | heq | hgt
              · rw [if_pos hlt, if_pos (by omega)]
                rfl
              · subst heq
                rw [if_neg (by omega), if_pos rfl, if_neg (by omega), if_pos rfl]
              · rw [if_neg (by omega), if_neg (by omega), if_neg (by omega),
                  if_neg (by omega)]
                have hi : i - 1 + 1 = i := by omega
                show as.get? (i - 1) = (a :: as).get? (i + 1 - 1)
                rw [show i + 1 - 1 = (i - 1) + 1 by omega]
                rfl

theorem get?_shiftLoop (existing : List Coord) (idx : Nat) (fuel : Nat)
    (pts : List ControlPoint) (i : Nat) :
    (shiftLoop existing idx fuel pts).get? i =
      if idx < i ∧ i ≤ idx + fuel ∧ i - 1 < existing.length then
        (pts.get? i).map (fun p => p.withCoords (existing.getD (i - 1) (0, 0, 0)))
      else pts.get? i := by
  induction fuel generalizing pts with
  | zero =>
      rw [shiftLoop, if_neg (by omega)]
  | succ k ih =>
      rw [shiftLoop]
      simp only [Nat.add_sub_cancel]
      rw [ih]
      by_cases hg : idx + k < existing.length
      · rw [if_pos hg]
        rcases Nat.lt_trichotomy i (idx + k + 1) with hlt | heq | hgt
        · by_cases hc : idx < i ∧ i ≤ idx + k ∧ i - 1 < existing.length
          · rw [if_pos hc, if_pos (by omega), get?_setCoordsAt, if_neg (by omega)]
          · rw [if_neg hc, get?_setCoordsAt, if_neg (by omega), if_neg (by omega)]
        · subst heq
          rw [if_neg (by omega), get?_setCoordsAt, if_pos rfl,
            if_pos (by constructor; omega; constructor; omega; omega)]
          simp only [Nat.add_sub_cancel]
        · rw [if_neg (by omega), get?_setCoordsAt, if_neg (by omega), if_neg (by omega)]
      · rw [if_neg hg]
        by_cases hc : idx < i ∧ i ≤ idx + k ∧ i - 1 < existing.length
        · rw [if_pos hc, if_pos (by omega)]
        · rw [if_neg hc, if_neg (by omega)]

theorem get?_append_singleton {α : Type} (l : List α) (x : α) (i : Nat) :
    (l ++ [x]).get? i =
      if i < l.length then l.get? i else if i = l.length then some x else none := by
  induction l generalizing i with
  | nil =>
      cases i with
      | zero => rfl
      | succ i => cases i <;> rfl
  | cons a as ih =>
      cases i with
      | zero => simp
      | succ i =>
          have h := ih i
          simpa [Nat.succ_lt_succ_iff] using h

theorem withCoords_withName_zero (p : ControlPoint) (s : String) :
    (p.withCoords (0, 0, 0)).withName s = ⟨0, 0, 0, s⟩ := rfl

theorem withCoords_coords_withName (q p : ControlPoint) (s : String) :
    (q.withCoords p.coords).withName s = p.withName s := rfl

theorem getD_map_coords (l : List ControlPoint) (j : Nat) (h : j < l.length) :
    (l.map ControlPoint.coords).getD j (0, 0, 0) = (l.get ⟨j, h⟩).coords := by
  induction l generalizing j with
  | nil => cases h
  | cons a as ih =>
      cases j with
      | zero => rfl
      | succ j => simpa using ih j (Nat.lt_of_succ_lt_succ h)

/-! ### Characterization of the insert operator -/

/-- Out-of-range insertion is literally the append branch. -/
theorem insertExec_of_outrange (st : SceneState) (index : Int)
    (h : index < 0 ∨ index > (st.control_points.length : Int)) :
    insertExec st index = addAtEnd st := by
  rw [insertExec, if_pos h]

/-- In-range insertion computes exactly the insertion of a fresh origin
point at position `index`, followed by a full marker resync. -/
theorem insertExec_of_inrange (st : SceneState) (index : Int)
    (h0 : 0 ≤ index) (h1 : index ≤ (st.control_points.length : Int)) :
    insertExec st index =
      { st with
        control_points :=
          resyncNames 0 (st.control_points.insertIdx index.toNat ⟨0, 0, 0, ""⟩)
        active_control_point_index := index } := by
  rw [insertExec, if_neg (by omega)]
  simp only [SceneState.mk.injEq, and_true, true_and]
  · apply List.ext_get?_iff.mpr
    intro i
    set cps := st.control_points with hcps
    set n := cps.length with hn
    set idx := index.toNat with hidx
    have hidxn : idx ≤ n := by omega
    rw [get?_resyncNames, get?_resyncNames, get?_setCoordsAt, get?_shiftLoop,
      get?_insertIdx _ _ _ hidxn]
    simp only [Nat.zero_add]
    have hex : (cps.map ControlPoint.coords).length = n := by simp [hn]
    rcases Nat.lt_trichotomy i idx with hlt | heq | hgt
    · have e1 : ¬ (i = idx) := by omega
      have e2 : ¬ (idx < i ∧ i ≤ idx + (n - idx) ∧
          i - 1 < (cps.map ControlPoint.coords).length) :=
        fun hco => absurd hco.1 (by omega)
      have e3 : i < cps.length := by omega
      rw [if_neg e1, if_neg e2, get?_append_singleton, if_pos e3, if_pos hlt]
    · subst heq
      have e2 : ¬ (idx < idx ∧ idx ≤ idx + (n - idx) ∧
          idx - 1 < (cps.map ControlPoint.coords).length) :=
        fun hco => absurd hco.1 (by omega)
      have e4 : ¬ (idx < idx) := by omega
      rw [if_pos rfl, if_neg e2, if_neg e4, if_pos rfl, get?_append_singleton]
      by_cases hin : idx < cps.length
      · rw [if_pos hin]
        cases hc : cps.get? idx with
        | none => exact absurd (List.get?_eq_none.mp hc) (by omega)
        | some p => rfl
      · rw [if_neg hin, if_pos (by omega)]
        rfl
    · have e1 : ¬ (i = idx) := by omega
      have e4 : ¬ (i < idx) := by omega
      by_cases hle : i ≤ n
      · have hi1 : i - 1 < cps.length := by omega
        have e2 : idx < i ∧ i ≤ idx + (n - idx) ∧
            i - 1 < (cps.map ControlPoint.coords).length :=
          ⟨hgt, by omega, by rw [hex]; omega⟩
        have hc : cps.get? (i - 1) = some (cps.get ⟨i - 1, hi1⟩) := List.get?_eq_get hi1
        have hgd : (cps.map ControlPoint.coords).getD (i - 1) (0, 0, 0) =
            (cps.get ⟨i - 1, hi1⟩).coords := getD_map_coords cps (i - 1) hi1
        rw [if_neg e1, if_pos e2, hgd, get?_append_singleton, if_neg e4, if_neg e1, hc]
        by_cases hin : i < cps.length
        · rw [if_pos hin]
          cases hc2 : cps.get? i with
          | none => exact absurd (List.get?_eq_none.mp hc2) (by omega)
          | some q => rfl
        · rw [if_neg hin, if_pos (by omega)]
          rfl
      · have e2 : ¬ (idx < i ∧ i ≤ idx + (n - idx) ∧
            i - 1 < (cps.map ControlPoint.coords).length) :=
          fun hco => absurd hco.2.1 (by omega)
        have e5 : ¬ (i < cps.length) := by omega
        have e6 : ¬ (i = cps.length) := by omega
        have hnone : cps.get? (i - 1) = none := List.get?_eq_none.mpr (by omega)
        rw [if_neg e1, if_neg e2, get?_append_singleton, if_neg e5, if_neg e6,
          if_neg e4, if_neg e1, hnone]

theorem map_coords_withName (o : Option ControlPoint) (s : String) :
    (o.map (fun p => p.withName s)).map ControlPoint.coords = o.map ControlPoint.coords := by
  cases o <;> rfl

theorem withName_sphere_name (p : ControlPoint) : p.withName p.sphere_name = p := rfl

/-- Full marker resync of an append of a fresh point: when every existing
name already agrees with its index, the resync changes only the fresh
point's name. -/
theorem resyncNames_append_of_synced (cps : List ControlPoint)
    (hsync : ∀ i (h : i < cps.length),
      (cps.get ⟨i, h⟩).sphere_name = controlPointName i) :
    resyncNames 0 (cps ++ [⟨0, 0, 0, ""⟩]) =
      cps ++ [⟨0, 0, 0, controlPointName cps.length⟩] := by
  apply List.ext_get?_iff.mpr
  intro i
  rw [get?_resyncNames, get?_append_singleton, get?_append_singleton]
  simp only [Nat.zero_add]
  rcases Nat.lt_trichotomy i cps.length with hlt | heq | hgt
  · rw [if_pos hlt, if_pos hlt, List.get?_eq_get hlt]
    have hs := hsync i hlt
    show some ((cps.get ⟨i, hlt⟩).withName (controlPointName i)) = _
    rw [← hs, withName_sphere_name]
  · rw [if_neg (by omega), if_pos heq, if_neg (by omega), if_pos heq]
    subst heq
    rfl
  · rw [if_neg (by omega), if_neg (by omega), if_neg (by omega), if_neg (by omega)]
    rfl

/-! ### Sample states for concrete evaluations -/

/-- A two-point state whose markers are fully synchronized. -/
def sampleState : SceneState :=
  { control_points :=
      [⟨1, 2, 3, "ControlPoint_0"⟩, ⟨4, 5, 6, "ControlPoint_1"⟩]
    active_control_point_index := 0
    curve_type := "BEZIER"
    curve_name := "Path" }

/-- The empty-list state. -/
def emptyState : SceneState :=
  { control_points := []
    active_control_point_index := 0
    curve_type := "BEZIER"
    curve_name := "Path" }

/-! ### Claims about the insert operator -/

/-- C2: for every list and every index argument, insert with
`index < 0` or `index > length` takes the append branch; for an in-range
index every point originally at a position `≥ index` shifts right by one,
the new point occupies the given index, and `activeIndex` is set to the
inserted position. -/
theorem insert_index_semantics (st : SceneState) (index : Int) :
    (index < 0 ∨ index > (st.control_points.length : Int) →
      insertExec st index = addAtEnd st) ∧
    (0 ≤ index → index ≤ (st.control_points.length : Int) →
      (insertExec st index).control_points.length = st.control_points.length + 1 ∧
      (insertExec st index).active_control_point_index = index ∧
      ((insertExec st index).control_points.get? index.toNat).map ControlPoint.coords
        = some (0, 0, 0) ∧
      (∀ j, j < index.toNat →
        ((insertExec st index).control_points.get? j).map ControlPoint.coords
          = (st.control_points.get? j).map ControlPoint.coords) ∧
      (∀ j, index.toNat ≤ j → j < st.control_points.length →
        ((insertExec st index).control_points.get? (j + 1)).map ControlPoint.coords
          = (st.control_points.get? j).map ControlPoint.coords)) := by
  constructor
  · intro h
    exact insertExec_of_outrange st index h
  · intro h0 h1
    rw [insertExec_of_inrange st index h0 h1]
    set cps := st.control_points with hcps
    set idx := index.toNat with hidx
    have hidxn : idx ≤ cps.length := by omega
    refine ⟨?_, rfl, ?_, ?_, ?_⟩
    · rw [length_resyncNames, List.length_insertIdx idx cps hidxn]
    · rw [get?_resyncNames, get?_insertIdx _ _ _ hidxn, if_neg (by omega), if_pos rfl]
      rfl
    · intro j hj
      rw [get?_resyncNames, get?_insertIdx _ _ _ hidxn, if_pos hj, map_coords_withName]
    · intro j hj1 hj2
      rw [get?_resyncNames, get?_insertIdx _ _ _ hidxn, if_neg (by omega),
        if_neg (by omega), Nat.add_sub_cancel, map_coords_withName]

/-- Witness for C2 at a concrete two-point state: out-of-range index `-1`
takes the append branch, and in-range index `1` shifts and sets the
active index. -/
theorem insert_index_semantics_witness :
    ((-1 : Int) < 0 ∨ (-1 : Int) > (sampleState.control_points.length : Int)) ∧
    insertExec sampleState (-1) = addAtEnd sampleState ∧
    ((0 : Int) ≤ 1 ∧ (1 : Int) ≤ (sampleState.control_points.length : Int)) ∧
    ((insertExec sampleState 1).control_points.length
        = sampleState.control_points.length + 1 ∧
      (insertExec sampleState 1).active_control_point_index = 1 ∧
      ((insertExec sampleState 1).control_points.get? (1 : Int).toNat).map
          ControlPoint.coords = some (0, 0, 0) ∧
      (∀ j, j < (1 : Int).toNat →
        ((insertExec sampleState 1).control_points.get? j).map ControlPoint.coords
          = (sampleState.control_points.get? j).map ControlPoint.coords) ∧
      (∀ j, (1 : Int).toNat ≤ j → j < sampleState.control_points.length →
        ((insertExec sampleState 1).control_points.get? (j + 1)).map ControlPoint.coords
          = (sampleState.control_points.get? j).map ControlPoint.coords)) :=
  ⟨Or.inl (by decide),
   (insert_index_semantics sampleState (-1)).1 (Or.inl (by decide)),
   ⟨by decide, by decide⟩,
   (insert_index_semantics sampleState 1).2 (by decide) (by decide)⟩

/-- C7: `insert(-1, p)`, `insert(length, p)` and `insert(length + 5, p)`
all behave as appending at the end: the out-of-range calls are literally
the append branch, `insert(length)` produces the same coordinate sequence
and active index, and on a fully synchronized state the very same state. -/
theorem insert_at_end_equivalence (st : SceneState) :
    insertExec st (-1) = addAtEnd st ∧
    insertExec st ((st.control_points.length : Int) + 5) = addAtEnd st ∧
    coordsList (insertExec st (st.control_points.length : Int)).control_points
      = coordsList (addAtEnd st).control_points ∧
    (insertExec st (st.control_points.length : Int)).active_control_point_index
      = (addAtEnd st).active_control_point_index ∧
    (fullySynced st →
      insertExec st (st.control_points.length : Int) = addAtEnd st) := by
  have hn : ((st.control_points.length : Int)).toNat = st.control_points.length := by
    omega
  have hin := insertExec_of_inrange st (st.control_points.length : Int)
    (by omega) (by omega)
  refine ⟨insertExec_of_outrange st (-1) (Or.inl (by omega)),
    insertExec_of_outrange st _ (Or.inr (by omega)), ?_, ?_, ?_⟩
  · rw [hin]
    show coordsList (resyncNames 0 _) = _
    rw [coordsList_resyncNames, coordsList_insertIdx, hn]
    have hlen : (coordsList st.control_points).length = st.control_points.length := by
      simp [coordsList]
    rw [← hlen, List.insertIdx_length_self]
    show _ = coordsList (st.control_points ++ [_])
    simp [coordsList, ControlPoint.coords]
  · rw [hin]
    rfl
  · intro hsync
    rw [hin]
    show SceneState.mk _ _ _ _ = SceneState.mk _ _ _ _
    rw [hn, List.insertIdx_length_self, resyncNames_append_of_synced st.control_points hsync]

/-- Witness for C7: the fully synchronized two-point sample state, where
`insert(length)` agrees with the append branch as a whole state. -/
theorem insert_at_end_equivalence_witness :
    fullySynced sampleState ∧
    insertExec sampleState ((sampleState.control_points.length : Int))
      = addAtEnd sampleState :=
  ⟨by decide, (insert_at_end_equivalence sampleState).2.2.2.2 (by decide)⟩

/-- C10: whatever the state and index argument, the point the add
operator inserts carries coordinates exactly `(0, 0, 0)` — the operator
interface has no position parameter (its only datum is `index`), and both
execution branches write the origin into the new slot, which is where the
new active index points. -/
theorem insert_new_point_origin (st : SceneState) (index : Int) :
    ((insertExec st index).control_points.get?
        (insertExec st index).active_control_point_index.toNat).map ControlPoint.coords
      = some (0, 0, 0) := by
  by_cases h : index < 0 ∨ index > (st.control_points.length : Int)
  · rw [insertExec_of_outrange st index h]
    show ((st.control_points ++ [_]).get? (st.control_points.length : Int).toNat).map
      ControlPoint.coords = _
    have hn : ((st.control_points.length : Int)).toNat = st.control_points.length := by
      omega
    rw [hn, get?_append_singleton, if_neg (by omega), if_pos rfl]
    rfl
  · have h0 : 0 ≤ index := by omega
    have h1 : index ≤ (st.control_points.length : Int) := by omega
    rw [insertExec_of_inrange st index h0 h1]
    show ((resyncNames 0 _).get? index.toNat).map ControlPoint.coords = _
    have hidxn : index.toNat ≤ st.control_points.length := by omega
    rw [get?_resyncNames, get?_insertIdx _ _ _ hidxn, if_neg (by omega), if_pos rfl]
    rfl

/-! ### Claims about the remove operator -/

/-- C3 counterexample: removing at index `0` from the empty list does not
raise `IndexError`; the operator returns normally with the state
unchanged and a warning report. -/
theorem remove_out_of_range_no_exception :
    removeExec emptyState 0 = .ok (emptyState, .warning "Invalid point index") ∧
    removeExec emptyState 0 ≠ .error .indexError := by
  constructor
  · rfl
  · intro h
    cases h

/-- C3 (amended): for every list, remove with an index outside
`[0, length - 1]` is rejected as a recoverable usage error — a warning
report with the state unchanged — rather than an `IndexError`. -/
theorem remove_out_of_range_warns (st : SceneState) (index : Int)
    (h : ¬ (0 ≤ index ∧ index < (st.control_points.length : Int))) :
    removeExec st index = .ok (st, .warning "Invalid point index") := by
  rw [removeExec, if_neg h]

/-- Witness for the amended C3: index `5` on the two-point sample state. -/
theorem remove_out_of_range_warns_witness :
    ¬ ((0 : Int) ≤ 5 ∧ (5 : Int) < (sampleState.control_points.length : Int)) ∧
    removeExec sampleState 5 = .ok (sampleState, .warning "Invalid point index") :=
  ⟨by decide, remove_out_of_range_warns sampleState 5 (by decide)⟩

/-- The state the remove operator leaves behind when the first point of
the sample state is removed: the surviving point has shifted to index `0`
but still carries the marker name of index `1`. -/
def staleState : SceneState :=
  { control_points := [⟨4, 5, 6, "ControlPoint_1"⟩]
    active_control_point_index := 0
    curve_type := "BEZIER"
    curve_name := "Path" }

/-- C1 (divergence witness): on the fully synchronized two-point sample
state, removing the point at index `0` succeeds, but the surviving point
keeps the marker name `"ControlPoint_1"` while now living at index `0`:
marker-index agreement held before the operation and is violated
immediately after it returns, because the remove operator never rewrites
the names of the points that shifted down. -/
theorem remove_breaks_marker_agreement :
    markerAgreement sampleState ∧
    removeExec sampleState 0 = .ok (staleState, .info "Removed control point 1") ∧
    ¬ markerAgreement staleState :=
  ⟨by decide, rfl, by decide⟩

/-! ### Claims about the generate operator -/

/-- A NURBS-mode state over a given point list. -/
def nurbsStateOf (ps : List ControlPoint) : SceneState :=
  { control_points := ps
    active_control_point_index := 0
    curve_type := "NURBS"
    curve_name := "Path" }

/-- The ten-point list used to exercise the order clamp. -/
def tenPoints : List ControlPoint :=
  List.replicate 10 ⟨7, 8, 9, ""⟩

/-- C4: generating a NURBS curve from a non-empty list of `n` points
finishes and produces a spline of order `min(4, n)` with endpoint
interpolation enabled and one `(x, y, z, 1)` control point per list
point, in list order. -/
theorem generate_nurbs_order_and_points (st : SceneState)
    (hty : st.curve_type = "NURBS") (hne : st.control_points ≠ []) :
    (generateExec st).1 = .FINISHED ∧
    (generateExec st).2.1.map CurveObjectData.spline =
      some (SplineData.nurbs
        (st.control_points.map (fun p => (p.x, p.y, p.z, 1)))
        (min 4 st.control_points.length) true) := by
  cases hl : st.control_points with
  | nil => exact absurd hl hne
  | cons a as =>
      rw [generateExec]
      rw [hl, hty]
      simp

/-- Witness for C4: order clamps to `4` on ten points and to `1` on one
point. -/
theorem generate_nurbs_order_and_points_witness :
    ((nurbsStateOf tenPoints).curve_type = "NURBS" ∧
      (nurbsStateOf tenPoints).control_points ≠ [] ∧
      (generateExec (nurbsStateOf tenPoints)).1 = .FINISHED ∧
      (generateExec (nurbsStateOf tenPoints)).2.1.map CurveObjectData.spline =
        some (SplineData.nurbs
          ((nurbsStateOf tenPoints).control_points.map (fun p => (p.x, p.y, p.z, 1)))
          (min 4 (nurbsStateOf tenPoints).control_points.length) true)) ∧
    ((nurbsStateOf [⟨1, 1, 1, ""⟩]).curve_type = "NURBS" ∧
      (nurbsStateOf [⟨1, 1, 1, ""⟩]).control_points ≠ [] ∧
      (generateExec (nurbsStateOf [⟨1, 1, 1, ""⟩])).1 = .FINISHED ∧
      (generateExec (nurbsStateOf [⟨1, 1, 1, ""⟩])).2.1.map CurveObjectData.spline =
        some (SplineData.nurbs
          ((nurbsStateOf [⟨1, 1, 1, ""⟩]).control_points.map (fun p => (p.x, p.y, p.z, 1)))
          (min 4 (nurbsStateOf [⟨1, 1, 1, ""⟩]).control_points.length) true)) :=
  ⟨⟨rfl, by decide,
    (generate_nurbs_order_and_points (nurbsStateOf tenPoints) rfl (by decide)).1,
    (generate_nurbs_order_and_points (nurbsStateOf tenPoints) rfl (by decide)).2⟩,
   ⟨rfl, by decide,
    (generate_nurbs_order_and_points (nurbsStateOf [⟨1, 1, 1, ""⟩]) rfl (by decide)).1,
    (generate_nurbs_order_and_points (nurbsStateOf [⟨1, 1, 1, ""⟩]) rfl (by decide)).2⟩⟩

/-- C5: generating with zero control points cancels with a warning and
produces no curve object. -/
theorem generate_empty_cancels (st : SceneState) (h : st.control_points = []) :
    generateExec st = (.CANCELLED, none, .warning "No control points added!") := by
  rw [generateExec, h]
  rfl

/-- Witness for C5 at the empty state. -/
theorem generate_empty_cancels_witness :
    emptyState.control_points = [] ∧
    generateExec emptyState = (.CANCELLED, none, .warning "No control points added!") :=
  ⟨rfl, generate_empty_cancels emptyState rfl⟩

/-- C9: generating a Bezier curve from a non-empty list finishes with a
curve object named `curve_name + "Obj"` whose spline holds exactly one
anchor per point, in list order, at the point's `(x, y, z)`, with both
handle types `AUTO`. -/
theorem generate_bezier_anchors (st : SceneState)
    (hty : st.curve_type = "BEZIER") (hne : st.control_points ≠ []) :
    generateExec st = (.FINISHED,
      some { name := (if st.curve_name = "" then "GeneratedCurve" else st.curve_name)
                       ++ "Obj"
             spline := SplineData.bezier (st.control_points.map (fun p =>
               { co := (p.x, p.y, p.z)
                 handle_right_type := "AUTO"
                 handle_left_type := "AUTO" })) },
      .info ("Generated " ++ st.curve_type ++ " curve: "
        ++ (if st.curve_name = "" then "GeneratedCurve" else st.curve_name))) := by
  have hnotn : ¬ (st.curve_type = "NURBS") := by
    rw [hty]
    decide
  cases hl : st.control_points with
  | nil => exact absurd hl hne
  | cons a as =>
      rw [generateExec]
      rw [hl]
      simp [hnotn, ControlPoint.coords, hty]

/-! ### Claims about the reorder (drag-drop move) operator -/

theorem length_coordsList (l : List ControlPoint) : (coordsList l).length = l.length := by
  simp [coordsList]

theorem getD_eq_get {α : Type} (l : List α) (j : Nat) (d : α) (h : j < l.length) :
    l.getD j d = l.get ⟨j, h⟩ := by
  induction l generalizing j with
  | nil => cases h
  | cons x xs ih =>
      cases j with
      | zero => rfl
      | succ j => simpa using ih j (Nat.lt_of_succ_lt_succ h)

theorem getD_coordsList (l : List ControlPoint) (j : Nat) (h : j < l.length) :
    (coordsList l).getD j (0, 0, 0) = (l.get ⟨j, h⟩).coords :=
  getD_map_coords l j h

theorem getD_insertIdx_self {α : Type} (l : List α) (x : α) (nn : Nat)
    (h : nn ≤ l.length) (d : α) :
    (l.insertIdx nn x).getD nn d = x := by
  have hlt : nn < (l.insertIdx nn x).length := by
    rw [List.length_insertIdx nn l h]
    omega
  rw [getD_eq_get _ _ _ hlt]
  exact List.get_insertIdx_self l x nn h

theorem collMove_inrange (l : List ControlPoint) (fromI toI : Int)
    (hf0 : 0 ≤ fromI) (hf : fromI < (l.length : Int))
    (ht0 : 0 ≤ toI) (ht : toI < (l.length : Int)) (hna : fromI.toNat < l.length) :
    collMove l fromI toI =
      (l.eraseIdx fromI.toNat).insertIdx toI.toNat (l.get ⟨fromI.toNat, hna⟩) := by
  rw [collMove, dif_pos ⟨hf0, hf, ht0, ht⟩]

theorem withName_eq_of_coords_eq (q p : ControlPoint) (s : String)
    (h : q.coords = p.coords) : q.withName s = p.withName s := by
  cases q
  cases p
  simp only [ControlPoint.coords, Prod.mk.injEq] at h
  simp [ControlPoint.withName, h.1, h.2.1, h.2.2]

/-- A full marker resync rebuilds exactly the original list whenever the
coordinates agree positionwise and the original was fully synchronized. -/
theorem resyncNames_eq_of_coords_of_synced (M cps : List ControlPoint)
    (hco : coordsList M = coordsList cps)
    (hsync : ∀ i (h : i < cps.length),
      (cps.get ⟨i, h⟩).sphere_name = controlPointName i) :
    resyncNames 0 M = cps := by
  have hgets : ∀ j, (M.get? j).map ControlPoint.coords
      = (cps.get? j).map ControlPoint.coords := by
    intro j
    have hc := congrArg (fun l => l.get? j) hco
    simpa [coordsList] using hc
  apply List.ext_get?_iff.mpr
  intro i
  rw [get?_resyncNames]
  simp only [Nat.zero_add]
  by_cases hi : i < cps.length
  · have hp : cps.get? i = some (cps.get ⟨i, hi⟩) := List.get?_eq_get hi
    have h2 := hgets i
    rw [hp] at h2
    cases hM : M.get? i with
    | none =>
        rw [hM] at h2
        exact absurd h2 (by simp)
    | some q =>
        rw [hM] at h2
        simp only [Option.map_some'] at h2
        have h3 : q.coords = (cps.get ⟨i, hi⟩).coords := by injection h2
        rw [hp]
        show some (q.withName (controlPointName i)) = _
        rw [withName_eq_of_coords_eq q (cps.get ⟨i, hi⟩) _ h3, ← hsync i hi,
          withName_sphere_name]
  · have hp : cps.get? i = none := List.get?_eq_none.mpr (by omega)
    have h2 := hgets i
    rw [hp] at h2
    cases hM : M.get? i with
    | none =>
        simp [hp]
        omega
    | some q =>
        rw [hM] at h2
        exact absurd h2 (by simp)

/-- C6: the drag-reorder operator repositions the single element at
`oldIndex` to `newIndex` (remove-then-reinsert semantics, the elements in
between shifting by one), sets the active index to `newIndex`, and the
inverse reorder restores the original order exactly — as a full state
when the starting markers were fully synchronized. -/
theorem moveTo_reposition_roundtrip (st : SceneState) (a b : Int)
    (ha0 : 0 ≤ a) (ha : a < (st.control_points.length : Int))
    (hb0 : 0 ≤ b) (hb : b < (st.control_points.length : Int)) :
    coordsList (reorderExec st a b).control_points =
      ((coordsList st.control_points).eraseIdx a.toNat).insertIdx b.toNat
        ((coordsList st.control_points).getD a.toNat (0, 0, 0)) ∧
    (reorderExec st a b).active_control_point_index = b ∧
    coordsList (reorderExec (reorderExec st a b) b a).control_points
      = coordsList st.control_points ∧
    (fullySynced st →
      (reorderExec (reorderExec st a b) b a).control_points = st.control_points) := by
  set cps := st.control_points with hcps
  set n := cps.length with hn
  have haN : a.toNat < n := by omega
  have hbN : b.toNat < n := by omega
  have h1 : (reorderExec st a b).control_points =
      resyncNames 0 ((cps.eraseIdx a.toNat).insertIdx b.toNat (cps.get ⟨a.toNat, haN⟩)) := by
    show resyncNames 0 (collMove cps a b) = _
    rw [collMove_inrange cps a b ha0 ha hb0 hb haN]
  have herlen : (cps.eraseIdx a.toNat).length + 1 = n := List.length_eraseIdx_add_one haN
  have h1len : (reorderExec st a b).control_points.length = n := by
    rw [h1, length_resyncNames, List.length_insertIdx _ _ (by omega)]
    omega
  have hcoords1 : coordsList (reorderExec st a b).control_points =
      ((coordsList cps).eraseIdx a.toNat).insertIdx b.toNat
        ((coordsList cps).getD a.toNat (0, 0, 0)) := by
    rw [h1, coordsList_resyncNames, coordsList_insertIdx, coordsList_eraseIdx,
      getD_coordsList cps a.toNat haN]
  have hbN1 : b.toNat < (reorderExec st a b).control_points.length := by omega
  have h2 : (reorderExec (reorderExec st a b) b a).control_points =
      resyncNames 0
        (((reorderExec st a b).control_points.eraseIdx b.toNat).insertIdx a.toNat
          ((reorderExec st a b).control_points.get ⟨b.toNat, hbN1⟩)) := by
    show resyncNames 0 (collMove _ b a) = _
    rw [collMove_inrange _ b a hb0 (by rw [h1len]; exact hb) ha0
      (by rw [h1len]; exact ha) hbN1]
  have hCLlen : (coordsList cps).length = n := by rw [length_coordsList]
  have herCL : ((coordsList cps).eraseIdx a.toNat).length + 1 = n := by
    rw [List.length_eraseIdx_add_one (by omega)]
    exact hCLlen
  have hM2coords :
      coordsList
        (((reorderExec st a b).control_points.eraseIdx b.toNat).insertIdx a.toNat
          ((reorderExec st a b).control_points.get ⟨b.toNat, hbN1⟩))
      = coordsList cps := by
    rw [coordsList_insertIdx, coordsList_eraseIdx, ← getD_coordsList _ b.toNat hbN1,
      hcoords1, getD_insertIdx_self _ _ _ (by omega) _, List.eraseIdx_insertIdx,
      getD_eq_get _ _ _ (by omega : a.toNat < (coordsList cps).length)]
    exact insertIdx_eraseIdx_self (coordsList cps) a.toNat (by omega)
  refine ⟨hcoords1, rfl, ?_, ?_⟩
  · rw [h2, coordsList_resyncNames]
    exact hM2coords
  · intro hsync
    rw [h2]
    exact resyncNames_eq_of_coords_of_synced _ _ hM2coords hsync

/-- Witness for C6 at the sample state, repositioning index `0` to `1`
and back. -/
theorem moveTo_reposition_roundtrip_witness :
    ((0 : Int) ≤ 0 ∧ (0 : Int) < (sampleState.control_points.length : Int) ∧
      (0 : Int) ≤ 1 ∧ (1 : Int) < (sampleState.control_points.length : Int)) ∧
    coordsList (reorderExec sampleState 0 1).control_points =
      ((coordsList sampleState.control_points).eraseIdx (0 : Int).toNat).insertIdx
        (1 : Int).toNat
        ((coordsList sampleState.control_points).getD (0 : Int).toNat (0, 0, 0)) ∧
    (reorderExec sampleState 0 1).active_control_point_index = 1 ∧
    coordsList (reorderExec (reorderExec sampleState 0 1) 1 0).control_points
      = coordsList sampleState.control_points ∧
    (reorderExec (reorderExec sampleState 0 1) 1 0).control_points
      = sampleState.control_points :=
  ⟨⟨by decide, by decide, by decide, by decide⟩,
   (moveTo_reposition_roundtrip sampleState 0 1 (by decide) (by decide)
     (by decide) (by decide)).1,
   (moveTo_reposition_roundtrip sampleState 0 1 (by decide) (by decide)
     (by decide) (by decide)).2.1,
   (moveTo_reposition_roundtrip sampleState 0 1 (by decide) (by decide)
     (by decide) (by decide)).2.2.1,
   (moveTo_reposition_roundtrip sampleState 0 1 (by decide) (by decide)
     (by decide) (by decide)).2.2.2 (by decide)⟩

/-! ### Claims about the adjacent-move operator -/

/-- The destination index the move operator computes:
`old_index - 1` for UP, `old_index + 1` for DOWN. -/
def destIndex (index : Int) (direction : Direction) : Int :=
  if direction = .UP then index - 1 else index + 1

theorem pyGet_nonneg (l : List ControlPoint) (i : Int) (h : 0 ≤ i) :
    pyGet l i = l.get? i.toNat := by
  rw [pyGet]
  show (if 0 ≤ pyResolve l.length i then l.get? (pyResolve l.length i).toNat else none) = _
  rw [pyResolve, if_neg (by omega : ¬ i < 0), if_pos h]

theorem pySetSphereName_nonneg (l : List ControlPoint) (i : Int) (s : String)
    (h : 0 ≤ i) :
    pySetSphereName l i s = setSphereNameAt l i.toNat s := by
  rw [pySetSphereName]
  show (if 0 ≤ pyResolve l.length i then setSphereNameAt l (pyResolve l.length i).toNat s
    else l) = _
  rw [pyResolve, if_neg (by omega : ¬ i < 0), if_pos h]

theorem get?_eraseIdx_own {α : Type} (l : List α) (nn : Nat) :
    ∀ i, (l.eraseIdx nn).get? i = if i < nn then l.get? i else l.get? (i + 1) := by
  induction l generalizing nn with
  | nil =>
      intro i
      have h1 : (List.eraseIdx ([] : List α) nn) = [] := by cases nn <;> rfl
      rw [h1]
      by_cases hi : i < nn
      · rw [if_pos hi]
      · rw [if_neg hi]
        rfl
  | cons a as ih =>
      intro i
      cases nn with
      | zero =>
          rw [if_neg (by omega)]
          rfl
      | succ nn =>
          cases i with
          | zero =>
              rw [if_pos (by omega)]
              rfl
          | succ i =>
              show (as.eraseIdx nn).get? i = _
              rw [ih nn i]
              by_cases hi : i < nn
              · rw [if_pos hi, if_pos (by omega)]
                rfl
              · rw [if_neg hi, if_neg (by omega)]
                rfl

/-- The pointwise effect of a collection move between adjacent positions
followed by renaming exactly the two affected markers: the two points
swap, each takes the name for its new position, everything else is left
alone. -/
theorem swap_rename_adjacent (cps : List ControlPoint) (oldN newN : Nat)
    (hold : oldN < cps.length) (hnew : newN < cps.length)
    (hadj : newN + 1 = oldN ∨ oldN + 1 = newN) (sOld sNew : String) :
    (setSphereNameAt (setSphereNameAt
        ((cps.eraseIdx oldN).insertIdx newN (cps.get ⟨oldN, hold⟩)) oldN sOld)
      newN sNew).length = cps.length ∧
    (setSphereNameAt (setSphereNameAt
        ((cps.eraseIdx oldN).insertIdx newN (cps.get ⟨oldN, hold⟩)) oldN sOld)
      newN sNew).get? newN = (cps.get? oldN).map (fun p => p.withName sNew) ∧
    (setSphereNameAt (setSphereNameAt
        ((cps.eraseIdx oldN).insertIdx newN (cps.get ⟨oldN, hold⟩)) oldN sOld)
      newN sNew).get? oldN = (cps.get? newN).map (fun p => p.withName sOld) ∧
    (∀ k, k ≠ oldN → k ≠ newN →
      (setSphereNameAt (setSphereNameAt
          ((cps.eraseIdx oldN).insertIdx newN (cps.get ⟨oldN, hold⟩)) oldN sOld)
        newN sNew).get? k = cps.get? k) := by
  have hne : oldN ≠ newN := by omega
  have herlen : (cps.eraseIdx oldN).length + 1 = cps.length :=
    List.length_eraseIdx_add_one hold
  have hnle : newN ≤ (cps.eraseIdx oldN).length := by omega
  have hmoved : ∀ i, ((cps.eraseIdx oldN).insertIdx newN (cps.get ⟨oldN, hold⟩)).get? i =
      if i < newN then (cps.eraseIdx oldN).get? i
      else if i = newN then some (cps.get ⟨oldN, hold⟩)
      else (cps.eraseIdx oldN).get? (i - 1) :=
    get?_insertIdx (cps.eraseIdx oldN) _ newN hnle
  refine ⟨?_, ?_, ?_, ?_⟩
  · rw [length_setSphereNameAt, length_setSphereNameAt,
      List.length_insertIdx _ _ hnle]
    omega
  · rw [get?_setSphereNameAt, if_pos rfl, get?_setSphereNameAt,
      if_neg (Ne.symm hne), hmoved, if_neg (by omega), if_pos rfl,
      List.get?_eq_get hold]
  · rw [get?_setSphereNameAt, if_neg hne, get?_setSphereNameAt, if_pos rfl, hmoved]
    rcases hadj with h | h
    · rw [if_neg (by omega), if_neg hne, get?_eraseIdx_own, if_pos (by omega),
        show oldN - 1 = newN by omega]
    · rw [if_pos (by omega), get?_eraseIdx_own, if_neg (by omega),
        show oldN + 1 = newN from h]
  · intro k hko hkn
    rw [get?_setSphereNameAt, if_neg hkn, get?_setSphereNameAt, if_neg hko, hmoved]
    by_cases hk : k < newN
    · rw [if_pos hk, get?_eraseIdx_own, if_pos (by omega)]
    · rw [if_neg hk, if_neg hkn, get?_eraseIdx_own, if_neg (by omega),
        show k - 1 + 1 = k by omega]

/-- Reduction of the move operator when the index and the destination
are both in range: the guard passes, both subscript reads succeed, and
the result is the moved list with the two markers renamed and the active
index set to the destination. -/
theorem moveAdjacentExec_inrange (st : SceneState) (index : Int) (dir : Direction)
    (h0 : 0 ≤ index) (h1 : index < (st.control_points.length : Int))
    (hd0 : 0 ≤ destIndex index dir)
    (hd1 : destIndex index dir < (st.control_points.length : Int)) :
    moveAdjacentExec st index dir = .ok
      { st with
        control_points :=
          pySetSphereName
            (pySetSphereName (collMove st.control_points index (destIndex index dir))
              index (controlPointName index))
            (destIndex index dir) (controlPointName (destIndex index dir))
        active_control_point_index := destIndex index dir } := by
  have hg : 0 ≤ (if dir = Direction.UP then index - 1 else index + 1) ∧
      (if dir = Direction.UP then index - 1 else index + 1)
        < (st.control_points.length : Int) := ⟨hd0, hd1⟩
  have hia : index.toNat < st.control_points.length := by omega
  have hib : (destIndex index dir).toNat < st.control_points.length := by omega
  have ha : pyGet st.control_points index =
      some (st.control_points.get ⟨index.toNat, hia⟩) := by
    rw [pyGet_nonneg _ _ h0]
    exact List.get?_eq_get hia
  have hb : pyGet st.control_points (if dir = Direction.UP then index - 1 else index + 1) =
      some (st.control_points.get ⟨(destIndex index dir).toNat, hib⟩) := by
    show pyGet st.control_points (destIndex index dir) = _
    rw [pyGet_nonneg _ _ hd0]
    exact List.get?_eq_get hib
  rw [moveAdjacentExec, if_pos hg, ha, hb]
  rfl

/-- C8 (amended): the adjacent-move operator is a no-op whenever the
computed destination index is out of `[0, n)`; when the index and its
destination are both in range it swaps the point at `index` with its
neighbor, renames exactly the two affected markers for their new
positions, and sets the active index to the moved point's new position;
but when the index itself is out of range while the destination is in
range (`index = length` with UP on a non-empty list), the operator
raises `IndexError` instead of failing silently. -/
theorem moveAdjacent_semantics (st : SceneState) (index : Int) (dir : Direction) :
    (¬ (0 ≤ destIndex index dir ∧
        destIndex index dir < (st.control_points.length : Int)) →
      moveAdjacentExec st index dir = .ok st) ∧
    (0 ≤ index → index < (st.control_points.length : Int) →
      0 ≤ destIndex index dir →
      destIndex index dir < (st.control_points.length : Int) →
      ∃ st2, moveAdjacentExec st index dir = Except.ok st2 ∧
        st2.active_control_point_index = destIndex index dir ∧
        st2.control_points.length = st.control_points.length ∧
        st2.control_points.get? (destIndex index dir).toNat =
          (st.control_points.get? index.toNat).map
            (fun p => p.withName (controlPointName (destIndex index dir))) ∧
        st2.control_points.get? index.toNat =
          (st.control_points.get? (destIndex index dir).toNat).map
            (fun p => p.withName (controlPointName index)) ∧
        (∀ k, k ≠ index.toNat → k ≠ (destIndex index dir).toNat →
          st2.control_points.get? k = st.control_points.get? k)) ∧
    (index = (st.control_points.length : Int) → dir = Direction.UP →
      1 ≤ st.control_points.length →
      moveAdjacentExec st index dir = .error .indexError) := by
  refine ⟨?_, ?_, ?_⟩
  · intro h
    have h' : ¬ (0 ≤ (if dir = Direction.UP then index - 1 else index + 1) ∧
        (if dir = Direction.UP then index - 1 else index + 1)
          < (st.control_points.length : Int)) := h
    rw [moveAdjacentExec, if_neg h']
  · intro h0 h1 hd0 hd1
    have hia : index.toNat < st.control_points.length := by omega
    have hib : (destIndex index dir).toNat < st.control_points.length := by omega
    have hadj : (destIndex index dir).toNat + 1 = index.toNat ∨
        index.toNat + 1 = (destIndex index dir).toNat := by
      cases dir with
      | UP =>
          have hd : destIndex index Direction.UP = index - 1 := rfl
          rw [hd] at hd0 hd1 ⊢
          left
          omega
      | DOWN =>
          have hd : destIndex index Direction.DOWN = index + 1 := rfl
          rw [hd] at hd0 hd1 ⊢
          right
          omega
    have hstate :
        pySetSphereName
          (pySetSphereName (collMove st.control_points index (destIndex index dir))
            index (controlPointName index))
          (destIndex index dir) (controlPointName (destIndex index dir)) =
        setSphereNameAt
          (setSphereNameAt
            ((st.control_points.eraseIdx index.toNat).insertIdx
              (destIndex index dir).toNat (st.control_points.get ⟨index.toNat, hia⟩))
            index.toNat (controlPointName index))
          (destIndex index dir).toNat (controlPointName (destIndex index dir)) := by
      rw [pySetSphereName_nonneg _ _ _ h0, pySetSphereName_nonneg _ _ _ hd0,
        collMove_inrange _ _ _ h0 h1 hd0 hd1 hia]
    obtain ⟨hlen, hnew, hold2, hrest⟩ :=
      swap_rename_adjacent st.control_points index.toNat (destIndex index dir).toNat
        hia hib hadj (controlPointName index) (controlPointName (destIndex index dir))
    refine ⟨_, moveAdjacentExec_inrange st index dir h0 h1 hd0 hd1, rfl, ?_, ?_, ?_, ?_⟩
    · show (pySetSphereName _ _ _).length = _
      rw [hstate]
      exact hlen
    · show (pySetSphereName _ _ _).get? _ = _
      rw [hstate]
      exact hnew
    · show (pySetSphereName _ _ _).get? _ = _
      rw [hstate]
      exact hold2
    · intro k hk1 hk2
      show (pySetSphereName _ _ _).get? _ = _
      rw [hstate]
      exact hrest k hk1 hk2
  · intro he hdir hn1
    subst hdir
    have hg : 0 ≤ (if Direction.UP = Direction.UP then index - 1 else index + 1) ∧
        (if Direction.UP = Direction.UP then index - 1 else index + 1)
          < (st.control_points.length : Int) := by
      constructor
      · show (0 : Int) ≤ index - 1
        omega
      · show index - 1 < (st.control_points.length : Int)
        omega
    have hnone : pyGet st.control_points index = none := by
      rw [pyGet_nonneg _ _ (by omega)]
      exact List.get?_eq_none.mpr (by omega)
    rw [moveAdjacentExec, if_pos hg, hnone]

/-- C8 counterexample: on the two-point sample state, index `2`
(= length, itself out of range) with direction UP computes the in-range
destination `1`, so the bounds guard passes and the subsequent subscript
raises `IndexError` — the call is neither a no-op nor a silent failure. -/
theorem moveAdjacent_out_of_range_raises :
    moveAdjacentExec sampleState 2 .UP = .error .indexError ∧
    moveAdjacentExec sampleState 2 .UP ≠ .ok sampleState := by
  constructor
  · rfl
  · intro h
    have h1 : moveAdjacentExec sampleState 2 .UP = .error .indexError := rfl
    rw [h1] at h
    exact Except.noConfusion h

/-- Witness for the amended C8: a no-op at the upper boundary
(index 0, UP) and a real swap (index 1, UP) on the sample state. -/
theorem moveAdjacent_semantics_witness :
    (¬ (0 ≤ destIndex 0 .UP ∧
        destIndex 0 .UP < (sampleState.control_points.length : Int)) ∧
      moveAdjacentExec sampleState 0 .UP = .ok sampleState) ∧
    ((0 : Int) ≤ 1 ∧ (1 : Int) < (sampleState.control_points.length : Int) ∧
      0 ≤ destIndex 1 .UP ∧
      destIndex 1 .UP < (sampleState.control_points.length : Int)) ∧
    (∃ st2, moveAdjacentExec sampleState 1 .UP = Except.ok st2 ∧
      st2.active_control_point_index = destIndex 1 .UP ∧
      st2.control_points.length = sampleState.control_points.length ∧
      st2.control_points.get? (destIndex 1 .UP).toNat =
        (sampleState.control_points.get? (1 : Int).toNat).map
          (fun p => p.withName (controlPointName (destIndex 1 .UP))) ∧
      st2.control_points.get? (1 : Int).toNat =
        (sampleState.control_points.get? (destIndex 1 .UP).toNat).map
          (fun p => p.withName (controlPointName 1)) ∧
      (∀ k, k ≠ (1 : Int).toNat → k ≠ (destIndex 1 .UP).toNat →
        st2.control_points.get? k = sampleState.control_points.get? k)) :=
  ⟨⟨by decide, (moveAdjacent_semantics sampleState 0 .UP).1 (by decide)⟩,
   ⟨by decide, by decide, by decide, by decide⟩,
   (moveAdjacent_semantics sampleState 1 .UP).2.1 (by decide) (by decide)
     (by decide) (by decide)⟩

/-- The three-point Bezier state of the spec's example scenario. -/
def bezierScenario : SceneState :=
  { control_points := [⟨2, 0, 0, ""⟩, ⟨0, 0, 0, ""⟩, ⟨1, 0, 0, ""⟩]
    active_control_point_index := 0
    curve_type := "BEZIER"
    curve_name := "Path" }

/-- Witness for C9: the spec scenario generates `"PathObj"` with three
AUTO/AUTO anchors. -/
theorem generate_bezier_anchors_witness :
    bezierScenario.curve_type = "BEZIER" ∧
    bezierScenario.control_points ≠ [] ∧
    generateExec bezierScenario = (.FINISHED,
      some { name := (if bezierScenario.curve_name = "" then "GeneratedCurve"
                        else bezierScenario.curve_name) ++ "Obj"
             spline := SplineData.bezier (bezierScenario.control_points.map (fun p =>
               { co := (p.x, p.y, p.z)
                 handle_right_type := "AUTO"
                 handle_left_type := "AUTO" })) },
      .info ("Generated " ++ bezierScenario.curve_type ++ " curve: "
        ++ (if bezierScenario.curve_name = "" then "GeneratedCurve"
              else bezierScenario.curve_name))) :=
  ⟨rfl, by decide, generate_bezier_anchors bezierScenario rfl (by decide)⟩

end PathGen
